import Mathlib

/-!
Verification of the kvexpress safe-apply engine against its source.

The development shallowly embeds the Go sources:
* `src/commands/files.go` — file utilities: `ReadFile`, `SortFile`,
  `BlankLineStrip`, `CheckFullPath`, `WriteFile`, `ChownFile`,
  `CheckFiletoWrite`, `RemoveFile`, `CheckLastFile`, `LockFilePath`,
  `LockFileWrite`, `LockFileRemove`, `CheckFullFilename`.
* `src/unnamed/part_000` — the `out` command: `outRun`, `checkOutFlags`.

Stateful code is embedded as explicit state passing over a purely
functional filesystem (`FS`).  Functions of the `kvexpress` package that
are called from `outRun` but whose source is not part of the repository
snapshot (`Get`, `LengthCheck`, `ChecksumCompare`, the three-argument
`kvexpress.WriteFile`, `RunCommand`, `StatsdPanic`, owner-id resolution)
are modelled from the specification; each such definition carries a doc
comment starting with "Modelled from the spec:".
-/

/-- Contents and metadata of one regular file.  Ownership is kept as the
owner specification string applied to the file; the numeric uid/gid
resolution (`GetOwnerID`/`GetGroupID`) is an external capability and is
abstracted away, as the spec itself suggests (§9). -/
structure FileData where
  content : String
  perms : Nat
  owner : String
deriving DecidableEq, Repr

/-- A purely functional filesystem: a partial map from paths to regular
files plus a set of directories.  Where a path carries a regular file the
`files` component takes precedence (a well-formed state never has both). -/
structure FS where
  files : String → Option FileData
  dirs : String → Bool

/-- The empty filesystem. -/
def FS.empty : FS :=
  { files := fun _ => none, dirs := fun _ => false }

/-- Create or replace the regular file at `p`. -/
def FS.setFile (fs : FS) (p : String) (fd : FileData) : FS :=
  { fs with files := fun q => if q = p then some fd else fs.files q }

/-- Remove the regular file at `p` (no effect on directories). -/
def FS.delFile (fs : FS) (p : String) : FS :=
  { fs with files := fun q => if q = p then none else fs.files q }

/-- Record a directory at `p`. -/
def FS.addDir (fs : FS) (p : String) : FS :=
  { fs with dirs := fun q => q == p || fs.dirs q }

/-- Result of a `stat`: whether anything (file or directory) exists at a
path.  Used for the `os.Stat`-error branches of the source. -/
def FS.statExists (fs : FS) (p : String) : Bool :=
  (fs.files p).isSome || fs.dirs p

/-- Outcome of a state-changing operation.  `fatal` models the
`StatsdPanic`/`os.Exit` abort paths of the source: the process terminates
at the failing filesystem call, leaving the state reached so far. -/
inductive WResult where
  | ok (fs : FS)
  | fatal (fs : FS) (reason : String)

/-- Owner recorded on a freshly created file before any chown: the user
running the process.  The concrete identity is irrelevant to every claim,
so it is a fixed sentinel. -/
def processOwner : String := ""

/-- Embeds the package-level variable `fileSuffix = "kvexpress"` of
`files.go`. -/
def fileSuffix : String := "kvexpress"

/-- Staging-file name used by `WriteFile`:
`fmt.Sprintf("%s.%s", filepath, fileSuffix)`. -/
def tmpName (filepath : String) : String :=
  filepath ++ "." ++ fileSuffix

/-- Models Go `path.Dir` on cleaned paths (no trailing slash, no dot
segments): everything before the last slash, `"/"` for a file directly
under the root, `"."` when there is no slash. -/
def pathDir (file : String) : String :=
  match file.data.reverse.dropWhile (fun c => !(c == '/')) with
  | [] => "."
  | [_] => "/"
  | _ :: rest => String.mk rest.reverse

/-- Embeds `ReadFile` of `files.go`: returns the file's contents, and the
empty string whenever the underlying read fails (no regular file at the
path — absent or a directory). -/
def ReadFile (fs : FS) (filepath : String) : String :=
  match fs.files filepath with
  | some fd => fd.content
  | none => ""

/-- Embeds `CheckFullPath` of `files.go`: `os.MkdirAll(path.Dir(file), 0755)`.
Creation fails — `StatsdPanic`, i.e. fatal — exactly when a regular file
already occupies the parent-directory path; otherwise the directory is
recorded. -/
def CheckFullPath (fs : FS) (file : String) : WResult :=
  let targetDirectory := pathDir file
  if (fs.files targetDirectory).isSome then
    .fatal fs "create_directory"
  else
    .ok (fs.addDir targetDirectory)

/-- Models Go `ioutil.WriteFile(p, data, perms)` (umask 0): fails if `p`
is a directory; creates the file with `perms` when absent; when a file
already exists it is truncated and rewritten and — per the documented
`os.WriteFile` behaviour — its previous permission mode and owner are
kept, the `perms` argument being applied only on creation. -/
def ioutilWriteFile (fs : FS) (p : String) (data : String) (perms : Nat) : WResult :=
  if fs.dirs p then
    .fatal fs "write_file"
  else
    match fs.files p with
    | none => .ok (fs.setFile p { content := data, perms := perms, owner := processOwner })
    | some old => .ok (fs.setFile p { content := data, perms := old.perms, owner := old.owner })

/-- Embeds `ChownFile` of `files.go`.  The uid/gid resolution is external;
the model records the owner specification string on the file.  `os.Chown`
fails when nothing exists at the path, and on failure the source calls
`StatsdPanic`, which terminates the process (fatal, spec §7).  The `Bool`
is the `fileChown` value the source returns. -/
def ChownFile (fs : FS) (filepath : String) (owner : String) : WResult × Bool :=
  match fs.files filepath with
  | some fd => (.ok (fs.setFile filepath { fd with owner := owner }), true)
  | none =>
      if fs.dirs filepath then
        (.ok fs, true)
      else
        (.fatal fs "chown_file", false)

/-- Models Go `os.Rename(src, dst)`: fails when the destination is a
directory or the source does not exist; otherwise atomically moves the
file, replacing any regular file at the destination. -/
def osRename (fs : FS) (src dst : String) : WResult :=
  if fs.dirs dst then
    .fatal fs "rename_file"
  else
    match fs.files src with
    | none => .fatal fs "rename_file"
    | some fd => .ok ((fs.delFile src).setFile dst fd)

/-- Embeds `WriteFile` of `files.go`: ensure the parent directory chain,
write the full content to the staging file `filepath + ".kvexpress"` with
the requested permissions, chown the staging file, then rename the
staging file over the target.  Every error branch calls `StatsdPanic`
and is fatal. -/
def WriteFile (fs : FS) (data : String) (filepath : String) (perms : Nat) (owner : String) : WResult :=
  match CheckFullPath fs filepath with
  | .fatal f r => .fatal f r
  | .ok fs1 =>
    match ioutilWriteFile fs1 (tmpName filepath) data perms with
    | .fatal f r => .fatal f r
    | .ok fs2 =>
      match ChownFile fs2 (tmpName filepath) owner with
      | (.fatal f r, _) => .fatal f r
      | (.ok fs3, _) => osRename fs3 (tmpName filepath) filepath

/-- Modelled from the spec: `ChecksumEngine.Compute` (§4.1) — the
`kvexpress.ComputeChecksum` source is not under `src/`.  The spec requires
only a deterministic content digest, stable across runs for identical
bytes; the model uses a concrete deterministic (indeed injective)
digest. -/
def ComputeChecksum (content : String) : String :=
  "digest:" ++ toString content.length ++ ":" ++ content

/-- Modelled from the spec: `SafeApplyEngine.LengthChecked` (§4.2) — the
`kvexpress.LengthCheck` source is not under `src/`.  The content passes
exactly when `len(content) < minLength` does not hold. -/
def LengthCheck (data : String) (minLength : Int) : Bool :=
  decide (minLength ≤ (data.length : Int))

/-- Modelled from the spec: `ChecksumEngine.Matches` (§4.1) — the
`kvexpress.ChecksumCompare` source is not under `src/`: equality of
`Compute(content)` against the expected digest. -/
def ChecksumCompare (data : String) (checksum : String) : Bool :=
  ComputeChecksum data == checksum

/-- Modelled from the spec: `AtomicFileWriter.Write` (§4.3) as invoked by
`outRun` — the three-argument `kvexpress.WriteFile` called in
`src/unnamed/part_000` is not under `src/`.  Per §4.3 it ensures the
parent directory chain, writes the full content to the staging file
`targetPath + ".kvexpress"` with the requested mode, and atomically
renames the staging file over the target; the `outRun` call site passes
no ownerSpec, so no chown step is modelled. -/
def kvexpressWriteFile (fs : FS) (data : String) (filepath : String) (perms : Nat) : WResult :=
  match CheckFullPath fs filepath with
  | .fatal f r => .fatal f r
  | .ok fs1 =>
    match ioutilWriteFile fs1 (tmpName filepath) data perms with
    | .fatal f r => .fatal f r
    | .ok fs2 => osRename fs2 (tmpName filepath) filepath

/-- Command-line flag state of the `out` command
(`src/unnamed/part_000`).  `PostExec` is declared in another command
file of the repository; it holds the optional post-commit command. -/
structure OutFlags where
  keyOutLocation : String
  filetoWrite : String
  minFileLength : Int
  filePermissions : Nat
  postExec : String
deriving DecidableEq, Repr

/-- How one `outRun` invocation ended.  `flagError` is the `os.Exit(1)`
of `checkOutFlags`; `fatalExit` is a `StatsdPanic` abort inside the
write; `wrote` and `rejected` both end the process successfully. -/
inductive OutOutcome where
  | flagError
  | wrote
  | rejected
  | fatalExit
deriving DecidableEq, Repr

/-- Observable result of one `outRun` invocation: the final filesystem,
the external commands executed (via `RunCommand`, modelled as the list of
command strings run), and the outcome. -/
structure OutResult where
  fs : FS
  execs : List String
  outcome : OutOutcome

/-- Embeds `outRun` of `src/unnamed/part_000`.  The Consul fetches
(`kvexpress.Get` on the data and checksum keys) are external inputs and
enter as the `kvData` and `checksum` parameters.  Control flow follows
the source: `checkOutFlags` exits when the key or file flag is empty;
then `LengthCheck` and `ChecksumCompare` gate the `kvexpress.WriteFile`
call; finally, whenever `PostExec` is non-empty it is run via
`RunCommand` (modelled from the spec: the post-commit hook, recorded as
the list of commands executed). -/
def outRun (flags : OutFlags) (kvData : String) (checksum : String) (fs : FS) : OutResult :=
  if flags.keyOutLocation = "" ∨ flags.filetoWrite = "" then
    { fs := fs, execs := [], outcome := .flagError }
  else
    let longEnough := LengthCheck kvData flags.minFileLength
    let checksumMatch := ChecksumCompare kvData checksum
    if longEnough && checksumMatch then
      match kvexpressWriteFile fs kvData flags.filetoWrite flags.filePermissions with
      | .fatal f _ => { fs := f, execs := [], outcome := .fatalExit }
      | .ok fs1 =>
          { fs := fs1
            execs := if flags.postExec = "" then [] else [flags.postExec]
            outcome := .wrote }
    else
      { fs := fs
        execs := if flags.postExec = "" then [] else [flags.postExec]
        outcome := .rejected }

/-- Embeds `CheckFullFilename` of `files.go`: `true` when the filename
begins with a slash (`strings.HasPrefix(file, "/")`) and the apply may
proceed; `false` models the "Please supply a complete file path."
rejection with `os.Exit(1)`. -/
def CheckFullFilename (file : String) : Bool :=
  match file.data with
  | c :: _ => c == '/'
  | [] => false

/-- How `CheckFiletoWrite` ends: continue to the write, stop with exit
status 0 because the target already has the same checksum, or stop with
exit status 1 because the target is a directory. -/
inductive CheckResult where
  | proceed
  | exitZeroSame
  | exitOneDir
deriving DecidableEq, Repr

/-- Embeds `CheckFiletoWrite` of `files.go`: stat the target; when
nothing is there, continue; when it is a directory, exit 1; otherwise
read the current target content, compute its checksum and, when it
equals the passed checksum, stop with exit status 0.  The function
performs no filesystem writes, so the state is returned unchanged. -/
def CheckFiletoWrite (fs : FS) (filename : String) (checksum : String) : FS × CheckResult :=
  match fs.files filename with
  | some fd =>
      if ComputeChecksum fd.content = checksum then
        (fs, .exitZeroSame)
      else
        (fs, .proceed)
  | none =>
      if fs.dirs filename then
        (fs, .exitOneDir)
      else
        (fs, .proceed)

/-- Embeds `RemoveFile` of `files.go`: when the stat fails (nothing at
the path) only a debug line is logged; a directory makes the process
exit 1 (fatal); otherwise the file is removed (removal of an existing
file cannot fail in the model). -/
def RemoveFile (fs : FS) (filename : String) : WResult :=
  match fs.files filename with
  | some _ => .ok (fs.delFile filename)
  | none =>
      if fs.dirs filename then
        .fatal fs "remove_directory"
      else
        .ok fs

/-- Embeds `LockFilePath` of `files.go`:
`fmt.Sprintf("%s.locked", file)`. -/
def LockFilePath (file : String) : String :=
  file ++ ".locked"

/-- Text written into the lock marker by `LockFileWrite`. -/
def lockedFileText (fileToLock : String) (lockReason : String) : String :=
  "To unlock '" ++ fileToLock ++ "' and allow kvexpress to write again:\n\nsudo kvexpress unlock -f "
    ++ fileToLock ++ "\n\nReason Locked: " ++ lockReason ++ "\n\n"

/-- Embeds `LockFileWrite` of `files.go`.  The package-level variables
`FiletoLock`, `LockReason`, `FilePermissions`, `Owner` (set by the `lock`
command's flags) enter as parameters, as the spec's §9 reframing
suggests.  When the stat of the marker fails (marker absent) the marker
is written via `WriteFile` with human-readable unlock instructions;
otherwise the call is a logged no-op. -/
def LockFileWrite (fs : FS) (file : String) (fileToLock : String) (lockReason : String)
    (perms : Nat) (owner : String) : WResult :=
  let lockedFile := LockFilePath file
  if fs.statExists lockedFile then
    .ok fs
  else
    WriteFile fs (lockedFileText fileToLock lockReason) lockedFile perms owner

/-- Embeds `LockFileRemove` of `files.go`: remove the
`$filename.locked` marker via `RemoveFile`. -/
def LockFileRemove (fs : FS) (file : String) : WResult :=
  RemoveFile fs (LockFilePath file)

/-- Embeds `CheckLastFile` of `files.go`: when the stat of the `.last`
file fails (nothing exists there), write `"This is a blank file.\n"` to
it via `WriteFile`; otherwise do nothing. -/
def CheckLastFile (fs : FS) (file : String) (perms : Nat) (owner : String) : WResult :=
  if fs.statExists file then
    .ok fs
  else
    WriteFile fs "This is a blank file.\n" file perms owner

/-- Models Go `strings.Split(s, "\n")`: split on every newline
character. -/
def stringsSplit (s : String) : List String :=
  (s.data.splitOn '\n').map String.mk

/-- Models Go `strings.Join(l, "\n")`. -/
def stringsJoin (l : List String) : String :=
  String.mk (List.intercalate ['\n'] (l.map String.data))

/-- Embeds `BlankLineStrip` of `files.go`: keep exactly the lines that
are not the empty string. -/
def BlankLineStrip (data : List String) : List String :=
  data.filter (fun str => decide (str ≠ ""))

/-- Models Go `sort.Strings`: ascending lexicographic order.  UTF-8
byte-wise comparison coincides with code-point lexicographic order, which
is the order of `String`'s `LinearOrder` instance. -/
def sortStrings (l : List String) : List String :=
  l.mergeSort

/-- Embeds `SortFile` of `files.go`: split into lines, remove blank lines
with `BlankLineStrip`, sort the remaining lines, join with newlines. -/
def SortFile (file : String) : String :=
  stringsJoin (sortStrings (BlankLineStrip (stringsSplit file)))

/-- Filesystem reached by an operation, whether it ended normally or
fatally. -/
def WResult.fsOf : WResult → FS
  | .ok fs => fs
  | .fatal fs _ => fs

/-- Whether an operation ended without a fatal abort. -/
def WResult.isOk : WResult → Bool
  | .ok _ => true
  | .fatal _ _ => false

/-- State produced by a successful `WriteFile fs data p perms owner` run
(parent directory recorded, staging file written, chowned, renamed over
the target): the abbreviation used by the correctness lemmas below. -/
def writeFileResult (fs : FS) (data : String) (p : String) (perms : Nat) (owner : String) : FS :=
  (((((fs.addDir (pathDir p)).setFile (tmpName p)
        ⟨data, perms, processOwner⟩).setFile (tmpName p)
        ⟨data, perms, owner⟩).delFile (tmpName p)).setFile p ⟨data, perms, owner⟩)

/-- Claim C9: for every file path, `ReadFile` returns the empty string
whenever the underlying read fails (in particular when no regular file
exists at the path), so at this interface a missing or unreadable file is
indistinguishable from a file with empty content. -/
theorem C9_ReadFile_failure_empty (fs fs2 : FS) (p : String) (fd : FileData)
    (habs : fs.files p = none) (hfd : fs2.files p = some fd) (hempty : fd.content = "") :
    ReadFile fs p = "" ∧ ReadFile fs p = ReadFile fs2 p := by
  constructor <;> simp [ReadFile, habs, hfd, hempty]

/-- Witness for C9 at a concrete missing path and a concrete
empty-content file. -/
theorem C9_witness :
    ReadFile FS.empty "/etc/app.conf" = "" ∧
      ReadFile FS.empty "/etc/app.conf" =
        ReadFile (FS.empty.setFile "/etc/app.conf" ⟨"", 416, "root"⟩) "/etc/app.conf" :=
  C9_ReadFile_failure_empty FS.empty (FS.empty.setFile "/etc/app.conf" ⟨"", 416, "root"⟩)
    "/etc/app.conf" ⟨"", 416, "root"⟩ (by decide) (by decide) (by decide)

/-- Claim C2 fails on the code: with the `.locked` marker present beside
the target, an `outRun` apply with valid (long enough, checksum-matching)
content still commits the new content to the target — `outRun` never
consults the lock marker. -/
theorem C2_lock_marker_ignored :
    ((FS.empty.setFile "/etc/app.conf.locked" ⟨"locked", 416, "root"⟩).setFile
        "/etc/app.conf" ⟨"old contents\n", 416, "root"⟩).statExists
      (LockFilePath "/etc/app.conf") = true ∧
    (outRun ⟨"apps/config", "/etc/app.conf", 10, 416, ""⟩
        "new content that is long enough\n"
        (ComputeChecksum "new content that is long enough\n")
        ((FS.empty.setFile "/etc/app.conf.locked" ⟨"locked", 416, "root"⟩).setFile
          "/etc/app.conf" ⟨"old contents\n", 416, "root"⟩)).outcome = OutOutcome.wrote ∧
    ReadFile (outRun ⟨"apps/config", "/etc/app.conf", 10, 416, ""⟩
        "new content that is long enough\n"
        (ComputeChecksum "new content that is long enough\n")
        ((FS.empty.setFile "/etc/app.conf.locked" ⟨"locked", 416, "root"⟩).setFile
          "/etc/app.conf" ⟨"old contents\n", 416, "root"⟩)).fs "/etc/app.conf" =
      "new content that is long enough\n" := by
  decide

/-- Claim C3 fails on the code: `outRun` never calls `CheckFiletoWrite`,
so a second apply of identical content re-writes the target (outcome
`wrote`) instead of being a no-change skip — although `CheckFiletoWrite`
itself, on the very same state and checksum, returns the exit-0 skip that
`files.go` documents ("has the same checksum. Stopping."). -/
theorem C3_second_apply_rewrites :
    let flags : OutFlags := ⟨"apps/config", "/etc/app.conf", 10, 416, ""⟩
    let kv := "hello world, long enough\n"
    let r1 := outRun flags kv (ComputeChecksum kv) FS.empty
    let r2 := outRun flags kv (ComputeChecksum kv) r1.fs
    r1.outcome = OutOutcome.wrote ∧
      ReadFile r1.fs "/etc/app.conf" = kv ∧
      (CheckFiletoWrite r1.fs "/etc/app.conf" (ComputeChecksum kv)).2 = CheckResult.exitZeroSame ∧
      r2.outcome = OutOutcome.wrote := by
  decide

/-- Claim C5, counterexample: with a post-commit command configured and
content too short (a rejection, no write), `outRun` still executes the
command. -/
theorem C5_counterexample :
    let r := outRun ⟨"apps/config", "/etc/app.conf", 10, 416, "service nginx restart"⟩
        "short" (ComputeChecksum "short") FS.empty
    r.outcome = OutOutcome.rejected ∧
      r.execs = ["service nginx restart"] ∧
      r.fs.files "/etc/app.conf" = none := by
  decide

/-- Claim C8 fails on the code: `checkOutFlags` only rejects empty flag
values, so an apply whose target path is relative (no leading slash)
proceeds and writes — even though `CheckFullFilename` of `files.go`,
which would reject exactly such paths, exists in the repository; `outRun`
never calls it. -/
theorem C8_relative_path_written :
    CheckFullFilename "relative/path.conf" = false ∧
    (outRun ⟨"apps/config", "relative/path.conf", 10, 416, ""⟩
        "new content that is long enough\n"
        (ComputeChecksum "new content that is long enough\n") FS.empty).outcome =
      OutOutcome.wrote ∧
    ReadFile (outRun ⟨"apps/config", "relative/path.conf", 10, 416, ""⟩
        "new content that is long enough\n"
        (ComputeChecksum "new content that is long enough\n") FS.empty).fs
      "relative/path.conf" = "new content that is long enough\n" := by
  decide

/-- Definitional shape of `outRun` with the local `let` bindings of the
source reduced; used to case-split apply runs. -/
theorem outRun_eq (flags : OutFlags) (kvData checksum : String) (fs : FS) :
    outRun flags kvData checksum fs =
      if flags.keyOutLocation = "" ∨ flags.filetoWrite = "" then
        ⟨fs, [], .flagError⟩
      else if LengthCheck kvData flags.minFileLength && ChecksumCompare kvData checksum then
        match kvexpressWriteFile fs kvData flags.filetoWrite flags.filePermissions with
        | .fatal f _ => ⟨f, [], .fatalExit⟩
        | .ok fs1 => ⟨fs1, if flags.postExec = "" then [] else [flags.postExec], .wrote⟩
      else
        ⟨fs, if flags.postExec = "" then [] else [flags.postExec], .rejected⟩ :=
  rfl

/-- Claim C4: when the content is too short or its checksum does not
match the declared checksum, the apply is the non-fatal `rejected`
outcome and the filesystem — in particular the target file — is left
completely unmodified; conversely the file is written (`wrote`) only
when both checks pass. -/
theorem C4_rejection_leaves_target (flags : OutFlags) (kvData checksum : String) (fs : FS)
    (hk : flags.keyOutLocation ≠ "") (hf : flags.filetoWrite ≠ "") :
    (¬(LengthCheck kvData flags.minFileLength = true ∧
          ChecksumCompare kvData checksum = true) →
        outRun flags kvData checksum fs =
          ⟨fs, if flags.postExec = "" then [] else [flags.postExec], .rejected⟩) ∧
    ((outRun flags kvData checksum fs).outcome = OutOutcome.wrote →
        LengthCheck kvData flags.minFileLength = true ∧
          ChecksumCompare kvData checksum = true) := by
  have hflag : ¬(flags.keyOutLocation = "" ∨ flags.filetoWrite = "") := by
    rintro (h | h)
    exacts [hk h, hf h]
  rw [outRun_eq, if_neg hflag]
  cases hL : LengthCheck kvData flags.minFileLength with
  | false => simp [hL]
  | true =>
    cases hC : ChecksumCompare kvData checksum with
    | false => simp [hC]
    | true =>
      refine ⟨fun hng => absurd ⟨rfl, rfl⟩ hng, fun _ => ⟨rfl, rfl⟩⟩

/-- Witness for C4: a too-short content with a non-matching declared
checksum is rejected on the empty filesystem, leaving it unchanged. -/
theorem C4_witness :
    outRun ⟨"apps/config", "/etc/app.conf", 10, 416, ""⟩ "short" "bogus" FS.empty =
      ⟨FS.empty, [], .rejected⟩ :=
  (C4_rejection_leaves_target ⟨"apps/config", "/etc/app.conf", 10, 416, ""⟩
      "short" "bogus" FS.empty (by decide) (by decide)).1 (by decide)

/-- Claim C5 as amended: the configured post-commit command, when set, is
executed at the end of every apply attempt that passes the flag checks
and does not abort fatally — after rejections (too short, checksum
mismatch) just as after successful commits — rather than only after a
successful commit. -/
theorem C5_postexec_every_attempt (flags : OutFlags) (kvData checksum : String) (fs : FS)
    (hk : flags.keyOutLocation ≠ "") (hf : flags.filetoWrite ≠ "")
    (hnf : (outRun flags kvData checksum fs).outcome ≠ OutOutcome.fatalExit) :
    (outRun flags kvData checksum fs).execs =
      if flags.postExec = "" then [] else [flags.postExec] := by
  have hflag : ¬(flags.keyOutLocation = "" ∨ flags.filetoWrite = "") := by
    rintro (h | h)
    exacts [hk h, hf h]
  rw [outRun_eq, if_neg hflag] at hnf ⊢
  by_cases hg : (LengthCheck kvData flags.minFileLength &&
      ChecksumCompare kvData checksum) = true
  · rw [if_pos hg] at hnf ⊢
    cases hW : kvexpressWriteFile fs kvData flags.filetoWrite flags.filePermissions with
    | fatal f r => rw [hW] at hnf; exact absurd rfl hnf
    | ok fs1 => rfl
  · rw [if_neg hg]

/-- Witness for C5's amended statement: a rejected apply (content too
short) with a configured command still reports that command as run. -/
theorem C5_witness :
    (outRun ⟨"apps/config", "/etc/app.conf", 10, 416, "service nginx restart"⟩
        "short" "bogus" FS.empty).execs = ["service nginx restart"] :=
  C5_postexec_every_attempt ⟨"apps/config", "/etc/app.conf", 10, 416, "service nginx restart"⟩
    "short" "bogus" FS.empty (by decide) (by decide) (by decide)

/-- The staging name is never the target name (it is strictly longer). -/
theorem tmpName_ne (p : String) : tmpName p ≠ p := by
  intro h
  have h2 := congrArg String.length h
  rw [tmpName, String.length_append, String.length_append] at h2
  have e1 : ".".length = 1 := rfl
  have e2 : fileSuffix.length = 9 := rfl
  omega

/-- A successful `WriteFile` run reaches exactly `writeFileResult`:
directory recorded, staging file written with the requested mode, chown
applied to the staging file, staging file renamed over the target. -/
theorem WriteFile_ok (fs : FS) (data p : String) (perms : Nat) (owner : String)
    (hdir : fs.files (pathDir p) = none)
    (htmp : fs.files (tmpName p) = none)
    (htmpd : fs.dirs (tmpName p) = false)
    (htgt : fs.dirs p = false)
    (hpd : p ≠ pathDir p)
    (htd : tmpName p ≠ pathDir p) :
    WriteFile fs data p perms owner = .ok (writeFileResult fs data p perms owner) := by
  have hpt : p ≠ tmpName p := fun h => tmpName_ne p h.symm
  have htd' : (tmpName p == pathDir p) = false := by simpa using htd
  have hpd' : (p == pathDir p) = false := by simpa using hpd
  have s1 : CheckFullPath fs p = .ok (fs.addDir (pathDir p)) := by
    simp [CheckFullPath, hdir]
  have s2 : ioutilWriteFile (fs.addDir (pathDir p)) (tmpName p) data perms =
      .ok ((fs.addDir (pathDir p)).setFile (tmpName p) ⟨data, perms, processOwner⟩) := by
    simp [ioutilWriteFile, FS.addDir, htmp, htmpd, htd']
  have s3 : ChownFile ((fs.addDir (pathDir p)).setFile (tmpName p)
        ⟨data, perms, processOwner⟩) (tmpName p) owner =
      (.ok (((fs.addDir (pathDir p)).setFile (tmpName p)
          ⟨data, perms, processOwner⟩).setFile (tmpName p) ⟨data, perms, owner⟩), true) := by
    simp [ChownFile, FS.setFile]
  simp only [WriteFile, s1, s2, s3]
  simp [osRename, writeFileResult, FS.setFile, FS.delFile, FS.addDir, hpd', htgt, hpt]

/-- Claim C1: `WriteFile` commits atomically — it first records the
parent directory, then writes the full content to the staging file
`targetPath + ".kvexpress"` with the requested permission mode, applies
ownership to that staging file, and only then renames the staging file
over the target; the target is untouched before the rename, and after
the successful commit reading the target returns exactly the written
content, with the requested permission mode and owner, the staging name
again empty and every other path unchanged.  The hypotheses are the
spec's own environment invariants (§3): no stale staging artifact, a
creatable parent directory, and no directory squatting on the target. -/
theorem C1_WriteFile_atomic_commit (fs : FS) (data p : String) (perms : Nat) (owner : String)
    (hdir : fs.files (pathDir p) = none)
    (htmp : fs.files (tmpName p) = none)
    (htmpd : fs.dirs (tmpName p) = false)
    (htgt : fs.dirs p = false)
    (hpd : p ≠ pathDir p)
    (htd : tmpName p ≠ pathDir p) :
    CheckFullPath fs p = .ok (fs.addDir (pathDir p)) ∧
    ioutilWriteFile (fs.addDir (pathDir p)) (tmpName p) data perms =
      .ok ((fs.addDir (pathDir p)).setFile (tmpName p) ⟨data, perms, processOwner⟩) ∧
    ChownFile ((fs.addDir (pathDir p)).setFile (tmpName p)
        ⟨data, perms, processOwner⟩) (tmpName p) owner =
      (.ok (((fs.addDir (pathDir p)).setFile (tmpName p)
          ⟨data, perms, processOwner⟩).setFile (tmpName p) ⟨data, perms, owner⟩), true) ∧
    (((fs.addDir (pathDir p)).setFile (tmpName p)
        ⟨data, perms, processOwner⟩).setFile (tmpName p) ⟨data, perms, owner⟩).files p =
      fs.files p ∧
    WriteFile fs data p perms owner =
      osRename (((fs.addDir (pathDir p)).setFile (tmpName p)
          ⟨data, perms, processOwner⟩).setFile (tmpName p) ⟨data, perms, owner⟩)
        (tmpName p) p ∧
    WriteFile fs data p perms owner = .ok (writeFileResult fs data p perms owner) ∧
    (writeFileResult fs data p perms owner).files p = some ⟨data, perms, owner⟩ ∧
    ReadFile (writeFileResult fs data p perms owner) p = data ∧
    (writeFileResult fs data p perms owner).files (tmpName p) = none ∧
    (∀ q, q ≠ p → q ≠ tmpName p →
      (writeFileResult fs data p perms owner).files q = fs.files q) := by
  have hpt : p ≠ tmpName p := fun h => tmpName_ne p h.symm
  have htd' : (tmpName p == pathDir p) = false := by simpa using htd
  have hpd' : (p == pathDir p) = false := by simpa using hpd
  have s1 : CheckFullPath fs p = .ok (fs.addDir (pathDir p)) := by
    simp [CheckFullPath, hdir]
  have s2 : ioutilWriteFile (fs.addDir (pathDir p)) (tmpName p) data perms =
      .ok ((fs.addDir (pathDir p)).setFile (tmpName p) ⟨data, perms, processOwner⟩) := by
    simp [ioutilWriteFile, FS.addDir, htmp, htmpd, htd']
  have s3 : ChownFile ((fs.addDir (pathDir p)).setFile (tmpName p)
        ⟨data, perms, processOwner⟩) (tmpName p) owner =
      (.ok (((fs.addDir (pathDir p)).setFile (tmpName p)
          ⟨data, perms, processOwner⟩).setFile (tmpName p) ⟨data, perms, owner⟩), true) := by
    simp [ChownFile, FS.setFile]
  have s5 : WriteFile fs data p perms owner =
      osRename (((fs.addDir (pathDir p)).setFile (tmpName p)
          ⟨data, perms, processOwner⟩).setFile (tmpName p) ⟨data, perms, owner⟩)
        (tmpName p) p := by
    simp only [WriteFile, s1, s2, s3]
  refine ⟨s1, s2, s3, ?_, s5, WriteFile_ok fs data p perms owner hdir htmp htmpd htgt hpd htd,
    ?_, ?_, ?_, ?_⟩
  · simp [FS.setFile, FS.addDir, hpt]
  · simp [writeFileResult, FS.setFile]
  · simp [ReadFile, writeFileResult, FS.setFile]
  · simp [writeFileResult, FS.setFile, FS.delFile, tmpName_ne p]
  · intro q hqp hqt
    simp [writeFileResult, FS.setFile, FS.delFile, FS.addDir, hqp, hqt]

/-- Witness for C1: a concrete commit on the empty filesystem leaves the
target holding exactly the written content with the requested mode and
owner, no staging file, and nothing else. -/
theorem C1_witness :
    WriteFile FS.empty "hello\n" "/etc/app.conf" 416 "root" =
      .ok (writeFileResult FS.empty "hello\n" "/etc/app.conf" 416 "root") ∧
    (writeFileResult FS.empty "hello\n" "/etc/app.conf" 416 "root").files "/etc/app.conf" =
      some ⟨"hello\n", 416, "root"⟩ ∧
    ReadFile (writeFileResult FS.empty "hello\n" "/etc/app.conf" 416 "root") "/etc/app.conf" =
      "hello\n" := by
  have h := C1_WriteFile_atomic_commit FS.empty "hello\n" "/etc/app.conf" 416 "root"
    (by decide) (by decide) (by decide) (by decide) (by decide) (by decide)
  exact ⟨h.2.2.2.2.2.1, h.2.2.2.2.2.2.1, h.2.2.2.2.2.2.2.1⟩

/-- Claim C6 fails on the code: `CheckLastFile` writes the `.last` file
with the fixed placeholder text `"This is a blank file.\n"` whenever
nothing exists at its path — a snapshot write that happens without any
successful commit and whose content does not equal the target's
(committed) content, so the `.last` file does not reflect the last
successful commit. -/
theorem C6_counterexample :
    let fs0 := FS.empty.setFile "/etc/app.conf" ⟨"hello world content\n", 416, "root"⟩
    let r := CheckLastFile fs0 "/etc/app.conf.last" 416 "root"
    WResult.isOk r = true ∧
      (WResult.fsOf r).files "/etc/app.conf.last" =
        some ⟨"This is a blank file.\n", 416, "root"⟩ ∧
      ReadFile (WResult.fsOf r) "/etc/app.conf.last" ≠ ReadFile (WResult.fsOf r) "/etc/app.conf" ∧
      (WResult.fsOf r).files "/etc/app.conf" = fs0.files "/etc/app.conf" := by
  decide

/-- Claim C6 as amended: the `.last` snapshot is not synchronized with
commits by the code under `src/`; `CheckLastFile` only initializes it —
when nothing exists at its path it writes the fixed placeholder
`"This is a blank file.\n"` there (atomically via `WriteFile`, with the
requested mode and owner, touching no other path except the transient
staging name), and when anything exists there it leaves the filesystem
unchanged. -/
theorem C6_checkLastFile_init_only (fs : FS) (file : String) (perms : Nat) (owner : String) :
    (fs.statExists file = true → CheckLastFile fs file perms owner = .ok fs) ∧
    (fs.statExists file = false →
      fs.files (pathDir file) = none →
      fs.files (tmpName file) = none →
      fs.dirs (tmpName file) = false →
      file ≠ pathDir file →
      tmpName file ≠ pathDir file →
      CheckLastFile fs file perms owner =
          .ok (writeFileResult fs "This is a blank file.\n" file perms owner) ∧
        (writeFileResult fs "This is a blank file.\n" file perms owner).files file =
          some ⟨"This is a blank file.\n", perms, owner⟩ ∧
        (∀ q, q ≠ file → q ≠ tmpName file →
          (writeFileResult fs "This is a blank file.\n" file perms owner).files q =
            fs.files q)) := by
  constructor
  · intro h
    simp [CheckLastFile, h]
  · intro h0 hdir htmp htmpd hpd htd
    have hdl : fs.dirs file = false := by
      rw [FS.statExists] at h0
      exact (Bool.or_eq_false_iff.mp h0).2
    have hpt : file ≠ tmpName file := fun h => tmpName_ne file h.symm
    refine ⟨?_, ?_, ?_⟩
    · rw [CheckLastFile, if_neg (by simp [h0])]
      exact WriteFile_ok fs "This is a blank file.\n" file perms owner
        hdir htmp htmpd hdl hpd htd
    · simp [writeFileResult, FS.setFile]
    · intro q hqp hqt
      simp [writeFileResult, FS.setFile, FS.delFile, FS.addDir, hqp, hqt]

/-- Witness for C6's amended statement at concrete inputs: a no-op when
the `.last` file exists, and placeholder creation when it is absent. -/
theorem C6_witness :
    CheckLastFile (FS.empty.setFile "/etc/app.conf.last" ⟨"old\n", 416, "root"⟩)
        "/etc/app.conf.last" 416 "root" =
      .ok (FS.empty.setFile "/etc/app.conf.last" ⟨"old\n", 416, "root"⟩) ∧
    CheckLastFile FS.empty "/etc/app.conf.last" 416 "root" =
      .ok (writeFileResult FS.empty "This is a blank file.\n" "/etc/app.conf.last" 416 "root") ∧
    (writeFileResult FS.empty "This is a blank file.\n" "/etc/app.conf.last" 416 "root").files
        "/etc/app.conf.last" = some ⟨"This is a blank file.\n", 416, "root"⟩ := by
  refine ⟨(C6_checkLastFile_init_only (FS.empty.setFile "/etc/app.conf.last"
      ⟨"old\n", 416, "root"⟩) "/etc/app.conf.last" 416 "root").1 (by decide), ?_⟩
  have h := (C6_checkLastFile_init_only FS.empty "/etc/app.conf.last" 416 "root").2
    (by decide) (by decide) (by decide) (by decide) (by decide) (by decide)
  exact ⟨h.1, h.2.1⟩

/-- Claim C7: `LockFileWrite` creates the `.locked` marker — holding the
human-readable unlock instructions — only when nothing exists at the
marker path and is a no-op when the marker already exists (so locking is
idempotent); `LockFileRemove` removes the marker when it is a regular
file and is a no-op when nothing is at its path (so unlocking is
idempotent). -/
theorem C7_lock_unlock_idempotent (fs : FS) (file ftl reason : String)
    (perms : Nat) (owner : String) :
    (fs.statExists (LockFilePath file) = true →
      LockFileWrite fs file ftl reason perms owner = .ok fs) ∧
    (fs.statExists (LockFilePath file) = false →
      fs.files (pathDir (LockFilePath file)) = none →
      fs.files (tmpName (LockFilePath file)) = none →
      fs.dirs (tmpName (LockFilePath file)) = false →
      LockFilePath file ≠ pathDir (LockFilePath file) →
      tmpName (LockFilePath file) ≠ pathDir (LockFilePath file) →
      LockFileWrite fs file ftl reason perms owner =
          .ok (writeFileResult fs (lockedFileText ftl reason) (LockFilePath file) perms owner) ∧
        (writeFileResult fs (lockedFileText ftl reason)
            (LockFilePath file) perms owner).files (LockFilePath file) =
          some ⟨lockedFileText ftl reason, perms, owner⟩ ∧
        LockFileWrite (writeFileResult fs (lockedFileText ftl reason)
            (LockFilePath file) perms owner) file ftl reason perms owner =
          .ok (writeFileResult fs (lockedFileText ftl reason)
            (LockFilePath file) perms owner)) ∧
    (∀ fd, fs.files (LockFilePath file) = some fd →
      LockFileRemove fs file = .ok (fs.delFile (LockFilePath file)) ∧
        (fs.delFile (LockFilePath file)).files (LockFilePath file) = none ∧
        (fs.dirs (LockFilePath file) = false →
          LockFileRemove (fs.delFile (LockFilePath file)) file =
            .ok (fs.delFile (LockFilePath file)))) ∧
    (fs.statExists (LockFilePath file) = false → LockFileRemove fs file = .ok fs) := by
  refine ⟨?_, ?_, ?_, ?_⟩
  · intro h
    simp [LockFileWrite, h]
  · intro h0 hdir htmp htmpd hpd htd
    have hdl : fs.dirs (LockFilePath file) = false := by
      rw [FS.statExists] at h0
      exact (Bool.or_eq_false_iff.mp h0).2
    refine ⟨?_, ?_, ?_⟩
    · rw [LockFileWrite, if_neg (by simp [h0])]
      exact WriteFile_ok fs (lockedFileText ftl reason) (LockFilePath file) perms owner
        hdir htmp htmpd hdl hpd htd
    · simp [writeFileResult, FS.setFile]
    · rw [LockFileWrite, if_pos ?_]
      simp [FS.statExists, writeFileResult, FS.setFile]
  · intro fd hfd
    refine ⟨?_, ?_, ?_⟩
    · simp [LockFileRemove, RemoveFile, hfd]
    · simp [FS.delFile]
    · intro hdl
      simp [LockFileRemove, RemoveFile, FS.delFile, hdl]
  · intro h0
    have hfl : fs.files (LockFilePath file) = none := by
      rw [FS.statExists] at h0
      have h1 := (Bool.or_eq_false_iff.mp h0).1
      cases hn : fs.files (LockFilePath file) with
      | none => rfl
      | some fd => rw [hn] at h1; simp at h1
    have hdl : fs.dirs (LockFilePath file) = false := by
      rw [FS.statExists] at h0
      exact (Bool.or_eq_false_iff.mp h0).2
    simp [LockFileRemove, RemoveFile, hfl, hdl]

/-- Witness for C7 at concrete inputs: locking the empty filesystem
creates the marker with the unlock instructions, locking again is a
no-op, and unlocking an absent marker is a no-op. -/
theorem C7_witness :
    LockFileWrite FS.empty "/etc/app.conf" "/etc/app.conf" "incident" 416 "root" =
      .ok (writeFileResult FS.empty (lockedFileText "/etc/app.conf" "incident")
        (LockFilePath "/etc/app.conf") 416 "root") ∧
    (writeFileResult FS.empty (lockedFileText "/etc/app.conf" "incident")
        (LockFilePath "/etc/app.conf") 416 "root").files (LockFilePath "/etc/app.conf") =
      some ⟨lockedFileText "/etc/app.conf" "incident", 416, "root"⟩ ∧
    LockFileWrite (writeFileResult FS.empty (lockedFileText "/etc/app.conf" "incident")
        (LockFilePath "/etc/app.conf") 416 "root") "/etc/app.conf" "/etc/app.conf"
        "incident" 416 "root" =
      .ok (writeFileResult FS.empty (lockedFileText "/etc/app.conf" "incident")
        (LockFilePath "/etc/app.conf") 416 "root") ∧
    LockFileRemove FS.empty "/etc/app.conf" = .ok FS.empty := by
  have h := (C7_lock_unlock_idempotent FS.empty "/etc/app.conf" "/etc/app.conf"
    "incident" 416 "root")
  have h2 := h.2.1 (by decide) (by decide) (by decide) (by decide) (by decide) (by decide)
  exact ⟨h2.1, h2.2.1, h2.2.2, h.2.2.2 (by decide)⟩

/-- No piece produced by `splitOnP` contains an element satisfying the
splitting predicate. -/
theorem splitOnP_pieces {α : Type} (p : α → Bool) (xs : List α) :
    ∀ l ∈ xs.splitOnP p, ∀ a ∈ l, ¬(p a = true) := by
  induction xs with
  | nil =>
    intro l hl
    rw [List.splitOnP_nil] at hl
    simp only [List.mem_singleton] at hl
    subst hl
    intro a ha
    simp at ha
  | cons x xs ih =>
    intro l hl
    rw [List.splitOnP_cons] at hl
    by_cases hx : p x = true
    · rw [if_pos hx] at hl
      rcases List.mem_cons.mp hl with h | h
      · subst h
        intro a ha
        simp at ha
      · exact ih l h
    · rw [if_neg hx] at hl
      cases hsp : xs.splitOnP p with
      | nil => exact absurd hsp (List.splitOnP_ne_nil p xs)
      | cons hd tl =>
        rw [hsp, List.modifyHead_cons] at hl
        rcases List.mem_cons.mp hl with h | h
        · subst h
          intro a ha
          rcases List.mem_cons.mp ha with rfl | ha
          · exact hx
          · exact ih hd (by rw [hsp]; exact List.mem_cons_self hd tl) a ha
        · exact ih l (by rw [hsp]; exact List.mem_cons_of_mem hd h)

/-- No line produced by `stringsSplit` contains a newline character. -/
theorem stringsSplit_no_newline (s : String) : ∀ x ∈ stringsSplit s, '\n' ∉ x.data := by
  intro x hx
  unfold stringsSplit at hx
  rcases List.mem_map.mp hx with ⟨l, hl, rfl⟩
  intro hmem
  rw [List.splitOn] at hl
  exact splitOnP_pieces (· == '\n') s.data l hl '\n' hmem rfl

/-- Joining a nonempty list of newline-free lines and splitting again
recovers the list. -/
theorem stringsSplit_join (l : List String) (hnl : ∀ x ∈ l, '\n' ∉ x.data) (hne : l ≠ []) :
    stringsSplit (stringsJoin l) = l := by
  unfold stringsSplit stringsJoin
  have hdata : (String.mk (List.intercalate ['\n'] (l.map String.data))).data =
      List.intercalate ['\n'] (l.map String.data) := rfl
  rw [hdata, List.splitOn]
  have h : (['\n'].intercalate (l.map String.data)).splitOn '\n' = l.map String.data :=
    List.splitOn_intercalate (l.map String.data) '\n'
      (fun l' hl' => by
        rcases List.mem_map.mp hl' with ⟨x, hx, rfl⟩
        exact hnl x hx)
      (fun h => hne (List.map_eq_nil_iff.mp h))
  rw [List.splitOn] at h
  rw [h, List.map_map]
  have hid : (String.mk ∘ String.data) = id := funext fun x => rfl
  rw [hid, List.map_id]

/-- Sorting with `sortStrings` yields a `≤`-sorted list. -/
theorem sortStrings_sorted (l : List String) : List.Sorted (· ≤ ·) (sortStrings l) :=
  List.sorted_mergeSort' l

/-- Sorting an already sorted list of strings is the identity. -/
theorem sortStrings_eq_self {l : List String} (h : List.Sorted (· ≤ ·) l) :
    sortStrings l = l :=
  List.mergeSort_eq_self h

/-- Membership is preserved by `sortStrings`. -/
theorem mem_sortStrings {l : List String} {x : String} (h : x ∈ sortStrings l) : x ∈ l :=
  ((List.mergeSort_perm l _).mem_iff).mp h

/-- Every line kept by `BlankLineStrip` is non-blank. -/
theorem blankLineStrip_no_blank (l : List String) : ∀ x ∈ BlankLineStrip l, x ≠ "" := by
  intro x hx
  have h := List.mem_filter.mp hx
  simpa using h.2

/-- `BlankLineStrip` keeps only lines of its input. -/
theorem blankLineStrip_sub (l : List String) : ∀ x ∈ BlankLineStrip l, x ∈ l :=
  fun _x hx => (List.mem_filter.mp hx).1

/-- `BlankLineStrip` is the identity on lists without blank lines. -/
theorem blankLineStrip_eq_self (l : List String) (h : ∀ x ∈ l, x ≠ "") :
    BlankLineStrip l = l :=
  List.filter_eq_self.mpr (fun a ha => by simpa using h a ha)

/-- Claim C10: `SortFile` returns the input's lines with all blank lines
removed and the rest sorted, joined by newlines; consequently its output
(when nonempty) splits into no blank line at all — in particular no
blank interior line — and `SortFile` is idempotent. -/
theorem C10_SortFile_idempotent (s : String) :
    SortFile (SortFile s) = SortFile s ∧
      (SortFile s = "" ∨ "" ∉ stringsSplit (SortFile s)) := by
  have hno : ∀ x ∈ sortStrings (BlankLineStrip (stringsSplit s)), x ≠ "" :=
    fun x hx => blankLineStrip_no_blank _ x (mem_sortStrings hx)
  have hnl : ∀ x ∈ sortStrings (BlankLineStrip (stringsSplit s)), '\n' ∉ x.data :=
    fun x hx => stringsSplit_no_newline s x (blankLineStrip_sub _ x (mem_sortStrings hx))
  have hsorted : List.Sorted (· ≤ ·) (sortStrings (BlankLineStrip (stringsSplit s))) :=
    sortStrings_sorted _
  by_cases hnil : sortStrings (BlankLineStrip (stringsSplit s)) = []
  · have he : SortFile s = "" := by
      unfold SortFile
      rw [hnil]
      rfl
    refine ⟨?_, Or.inl he⟩
    rw [he]
    unfold SortFile
    rw [show BlankLineStrip (stringsSplit "") = [] from rfl,
      show sortStrings ([] : List String) = [] from List.mergeSort_nil]
    rfl
  · have hsplit : stringsSplit (stringsJoin (sortStrings (BlankLineStrip (stringsSplit s)))) =
        sortStrings (BlankLineStrip (stringsSplit s)) :=
      stringsSplit_join _ hnl hnil
    constructor
    · unfold SortFile
      rw [hsplit, blankLineStrip_eq_self _ hno, sortStrings_eq_self hsorted]
    · refine Or.inr ?_
      show ¬("" ∈ stringsSplit (SortFile s))
      unfold SortFile
      rw [hsplit]
      intro hmem
      exact hno "" hmem rfl

/-- Witness for C10 at a concrete input string with blank and unsorted
lines. -/
theorem C10_witness :
    SortFile (SortFile "b\na\n\na") = SortFile "b\na\n\na" ∧
      (SortFile "b\na\n\na" = "" ∨ "" ∉ stringsSplit (SortFile "b\na\n\na")) :=
  C10_SortFile_idempotent "b\na\n\na"
